import Mathlib

/-!
Verification of the openfga evaluation core.

Shallow embedding of the relationship-based access-control evaluation core:

* the concurrent Check evaluator (`internal/graph/check.go`): the reducers
  `union`, `intersection`, `exclusion`, the handlers `checkDirect` / `checkTTU`,
  `checkRewrite` and `DispatchCheck`;
* the ListUsers expander (`pkg/server/commands/listusers/list_users_rpc.go`);
* the index materializer (`materializer` package).

Concurrency is abstracted as follows: every handler deterministically produces
an outcome `Except Err Bool` (the Go pair `(*CheckResponse, error)`), and a
reducer's drain loop consumes the outcomes in an *arrival order* that is an
arbitrary permutation of the handler list (the outcome channel delivers the
workers' results in a nondeterministic order; the per-branch concurrency limit
only constrains which orders are realizable, and every realizable order is a
permutation).  The deterministic evaluator `dispatchCheck` fixes the arrival
order to the handler order; the reducer theorems quantify over all arrival
orders.
-/

namespace OpenFGA

/-- Errors surfaced by the evaluation core.  `panicked` is reserved for the
`panic` at the head of the `exclusion` reducer (raised when it is handed a
handler count other than two); `fuelExhausted` is an artifact of the bounded
embedding of the (unbounded) ListUsers recursion. -/
inductive Err where
  | depthExceeded
  | relationUndefined (relation objectType : String)
  | typesystemMissing
  | unexpectedRewrite
  | panicked
  | fuelExhausted
  | storageErr (msg : String)
  deriving DecidableEq, Repr

/-- The Go pair `(*openfgapb.CheckResponse, error)` returned by a reducer:
`allowed` is `resp.GetAllowed()` and `err` is the error value. -/
structure GoResult where
  allowed : Bool
  err : Option Err
  deriving DecidableEq, Repr

/-- A handler outcome `(resp, err)` viewed as `Except`: Go callers of a
reducer first test `err != nil` and only then look at `resp.Allowed`, so the
response accompanying a non-nil error is dead. -/
def goExcept : GoResult → Except Err Bool
  | ⟨a, none⟩ => .ok a
  | ⟨_, some e⟩ => .error e

instance {ε α : Type} [DecidableEq ε] [DecidableEq α] : DecidableEq (Except ε α)
  | .ok a, .ok b =>
    if h : a = b then .isTrue (by rw [h]) else .isFalse (by intro hh; cases hh; exact h rfl)
  | .ok _, .error _ => .isFalse (by intro h; cases h)
  | .error _, .ok _ => .isFalse (by intro h; cases h)
  | .error e, .error f =>
    if h : e = f then .isTrue (by rw [h]) else .isFalse (by intro hh; cases hh; exact h rfl)

/-- A relationship tuple key `(object, relation, user)` in serialized form:
`object` is `type:id` and `user` is `type:id` or `type:id#relation`
(spec section 3). -/
structure TupleKey where
  object : String
  relation : String
  user : String
  deriving DecidableEq, Repr

/-- An object `(type, id)` as produced by the ListUsers expander. -/
structure Obj where
  type : String
  id : String
  deriving DecidableEq, Repr

/-- Split a character list at the first occurrence of `sep`, returning the
parts before and after it, or `none` when `sep` does not occur. -/
def splitCharsFirst (sep : Char) : List Char → Option (List Char × List Char)
  | [] => none
  | c :: rest =>
    if c == sep then some ([], rest)
    else
      match splitCharsFirst sep rest with
      | none => none
      | some (a, b) => some (c :: a, b)

/-- Split a string at the first occurrence of `sep`. -/
def splitFirst (sep : Char) (s : String) : Option (String × String) :=
  match splitCharsFirst sep s.data with
  | none => none
  | some (a, b) => some (⟨a⟩, ⟨b⟩)

/-- Modelled from the spec: `pkg/tuple.SplitObject` is not under `src/`;
spec section 3 gives the serialized form `type:id`, so the splitter cuts at
the first `:` (a string with no `:` has an empty type part). -/
def splitObject (s : String) : String × String :=
  match splitFirst ':' s with
  | none => ("", s)
  | some (t, i) => (t, i)

/-- Modelled from the spec: `pkg/tuple.SplitObjectRelation` is not under
`src/`; spec section 3 gives the userset form `type:id#relation`, so the
splitter cuts at the first `#` (a bare object yields an empty relation). -/
def splitObjectRelation (s : String) : String × String :=
  match splitFirst '#' s with
  | none => (s, "")
  | some (o, r) => (o, r)

/-- A user reference is a userset when it carries a `#relation` suffix. -/
def isUserset (user : String) : Bool :=
  (splitObjectRelation user).2 != ""

/-- A directly-related user-type reference: a type, optionally with a
relation or a wildcard (spec section 3). -/
inductive RelationRef where
  | plain (type : String)
  | withRelation (type relation : String)
  | wildcard (type : String)
  deriving DecidableEq, Repr

mutual
/-- The relation rewrite algebra (spec section 3 / `openfgapb.Userset`).
The children of `Union`/`Intersection` (a repeated proto field, i.e. a list)
are carried by the isomorphic `UsersetList` so that the evaluator is
structurally recursive. -/
inductive Userset where
  | this
  | computedUserset (relation : String)
  | tupleToUserset (tuplesetRelation computedRelation : String)
  | union (children : UsersetList)
  | intersection (children : UsersetList)
  | difference (base subtract : Userset)
  deriving DecidableEq, Repr

inductive UsersetList where
  | nil
  | cons (head : Userset) (tail : UsersetList)
  deriving DecidableEq, Repr
end

/-- The number of children in a `UsersetList` (the Go `len(children)`). -/
def UsersetList.length : UsersetList → Nat
  | .nil => 0
  | .cons _ tl => tl.length + 1

/-- A relation definition: its rewrite plus its directly-related user types
(the `TypeInfo` of the relation). -/
structure RelDef where
  rewrite : Userset
  directTypes : List RelationRef

/-- A type system: a finite map `(objectType, relationName) ↦ RelDef`. -/
def TypeSystem := List (String × String × RelDef)

/-- `TypeSystem.GetRelation(objectType, relation)`. -/
def getRelation (ts : TypeSystem) (objectType relation : String) : Option RelDef :=
  (ts.find? (fun e => e.1 == objectType && e.2.1 == relation)).map (·.2.2)

/-- `ReadUserTuple`: exact-key lookup of a tuple in the store. -/
def readUserTuple (store : List TupleKey) (tk : TupleKey) : Option TupleKey :=
  store.find? (· == tk)

/-- Modelled from the spec: the datastore implementations are not under
`src/`; spec section 4.2 specifies `ReadUsersetTuples(store, (object,
relation))` as yielding only the stored tuples on that object and relation
whose user is a userset. -/
def readUsersetTuples (store : List TupleKey) (tk : TupleKey) : List TupleKey :=
  store.filter (fun t => t.object == tk.object && t.relation == tk.relation && isUserset t.user)

/-- Modelled from the spec: `Read(store, filter)` with an object and relation
filter and no user filter (spec section 4.2). -/
def readTuples (store : List TupleKey) (object relation : String) : List TupleKey :=
  store.filter (fun t => t.object == object && t.relation == relation)

/-- Does the user shape of `user` match the directly-related user-type
reference `ref`?  Modelled from the spec (the `validation` package is not
under `src/`): a bare `type:id` user matches a plain type reference, a
`type:id#relation` user matches a reference carrying that relation, and a
`type:*` user matches a wildcard reference (spec section 3). -/
def userMatchesRef (user : String) (ref : RelationRef) : Bool :=
  let p := splitObjectRelation user
  let q := splitObject p.1
  match ref with
  | .plain t => p.2 == "" && q.1 == t && q.2 != "*"
  | .withRelation t r => p.2 == r && p.2 != "" && q.1 == t
  | .wildcard t => p.2 == "" && q.1 == t && q.2 == "*"

/-- Modelled from the spec: `validation.FilterInvalidTuples` is not under
`src/`; spec section 3 declares a tuple invalid when its user shape matches no
directly-related user type of its relation under the current model. -/
def validTuple (ts : TypeSystem) (tk : TupleKey) : Bool :=
  match getRelation ts (splitObject tk.object).1 tk.relation with
  | none => false
  | some rel => rel.directTypes.any (userMatchesRef tk.user)

/-! ## The reducers (`union`, `intersection`, `exclusion`)

Each drain function consumes the worker outcomes in their arrival order,
mirroring the `for i := 0; i < len(handlers); i++ { select ... }` loop of the
corresponding Go reducer. -/

/-- Drain loop of `union` (check.go:112-127): an error outcome returns
`(&CheckResponse{Allowed: false}, err)`; an allowed outcome returns the
child's response; a denied outcome is skipped; when all outcomes are denied
the reducer returns `(&CheckResponse{Allowed: false}, nil)`. -/
def unionDrain : List (Except Err Bool) → GoResult
  | [] => ⟨false, none⟩
  | .error e :: _ => ⟨false, some e⟩
  | .ok b :: rest => if b then ⟨true, none⟩ else unionDrain rest

/-- Drain loop of `intersection` (check.go:145-161): an error returns
`(false, err)`; a denied outcome returns the child's (denied) response; when
every outcome is allowed the reducer returns `(true, nil)`. -/
def intersectionDrain : List (Except Err Bool) → GoResult
  | [] => ⟨true, none⟩
  | .error e :: _ => ⟨false, some e⟩
  | .ok b :: rest => if b then intersectionDrain rest else ⟨false, none⟩

/-- Which of the two `exclusion` channels (`baseChan`, `subChan`) delivers
first: each worker sends exactly one outcome, so the two-iteration `select`
loop observes the outcomes in one of two orders. -/
inductive ExclArrival where
  | baseFirst
  | subFirst
  deriving DecidableEq, Repr

/-- Drain loop of `exclusion` (check.go:209-232) on the outcomes of the base
and subtract handlers, for a given arrival order: a base error or base denial
returns `(false, err)` / `(false, nil)`; a subtract error or subtract allowed
returns `(false, err)` / `(false, nil)`; if the loop survives both outcomes
the reducer returns `(true, nil)`. -/
def exclusionDrain (base sub : Except Err Bool) : ExclArrival → GoResult
  | .baseFirst =>
    match base with
    | .error e => ⟨false, some e⟩
    | .ok b =>
      if !b then ⟨false, none⟩
      else
        match sub with
        | .error e => ⟨false, some e⟩
        | .ok s => if s then ⟨false, none⟩ else ⟨true, none⟩
  | .subFirst =>
    match sub with
    | .error e => ⟨false, some e⟩
    | .ok s =>
      if s then ⟨false, none⟩
      else
        match base with
        | .error e => ⟨false, some e⟩
        | .ok b => if !b then ⟨false, none⟩ else ⟨true, none⟩

/-- The `exclusion` reducer including its guard (check.go:169-171): a handler
count other than exactly two hits the `panic` at the head of the function,
modelled as `none`. -/
def exclusionGo (outcomes : List (Except Err Bool)) (ord : ExclArrival) : Option GoResult :=
  match outcomes with
  | [b, s] => some (exclusionDrain b s ord)
  | _ => none

/-- The set-operation tag of `checkSetOperation` (check.go:16-22). -/
inductive SetOpType where
  | unionOp
  | intersectionOp
  | exclusionOp
  deriving DecidableEq, Repr

/-- The child-collection step of `checkSetOperation` (check.go:430-446):
union and intersection accept any child list; exclusion panics (`none`)
unless handed exactly two children. -/
def checkSetOperationChildren : SetOpType → UsersetList → Option UsersetList
  | .unionOp, cs => some cs
  | .intersectionOp, cs => some cs
  | .exclusionOp, cs => if cs.length == 2 then some cs else none

/-! ## The Check evaluator

`evalRw` embeds `checkRewrite` and the handlers it builds; the recursive
dispatch indirection (`c.dispatch` / `c.dispatcher.DispatchCheck`) is the
function parameter `dispatch`, so that `dispatchCheck` can tie the knot with
the depth counter decremented by one at every dispatch.  The evaluator fixes
the reducers' arrival order to the handler order; on deterministic handlers
this is one of the realizable schedules. -/

/-- Iterator bookkeeping of a handler: how many tuple iterators it obtains
from `Read*` calls and how many it releases with `Stop`.  The counts record
exactly the `Read*` and `Stop()` calls present in the Go source of the
handler (in the pure embedding a store read cannot fail halfway, so the
source's early-return paths collapse into the one recorded path). -/
structure IterTrace where
  acquired : Nat
  stopped : Nat
  deriving DecidableEq, Repr

/-- First handler of `checkDirect` (check.go:295-310): `ReadUserTuple` on the
exact key; present means allowed, `ErrNotFound` means denied.  No iterator is
involved. -/
def checkDirectFn1 (store : List TupleKey) (tk : TupleKey) : Except Err Bool :=
  match readUserTuple store tk with
  | some _ => .ok true
  | none => .ok false

/-- Second handler of `checkDirect` (check.go:312-349): obtains an iterator
from `ReadUsersetTuples`, dispatches a sub-check `U#r'@user` for every
userset tuple `object#relation@U#r'` found, and unions the dispatched
handlers (denied without error when there are none).  The trace records that
the handler acquires one iterator and — unlike `checkTTU`, which has
`defer iter.Stop()` — contains no `iter.Stop()` call on any path. -/
def checkDirectFn2 (dispatch : TupleKey → Except Err Bool) (store : List TupleKey)
    (tk : TupleKey) : Except Err Bool × IterTrace :=
  let tuples := readUsersetTuples store tk
  let handlers := tuples.map (fun t =>
    let p := splitObjectRelation t.user
    dispatch ⟨p.1, p.2, tk.user⟩)
  (if handlers.length > 0 then goExcept (unionDrain handlers) else .ok false, ⟨1, 0⟩)

/-- `checkTTU` (check.go:357-420): obtains an iterator from `Read(object,
tuplesetRelation)` (released by `defer iter.Stop()`), dispatches a sub-check
`U#computedRelation@user` for every tuple `object#tuplesetRelation@U[#_]`
found, and unions the dispatched handlers (denied without error when there
are none). -/
def checkTTUFn (dispatch : TupleKey → Except Err Bool) (store : List TupleKey)
    (tk : TupleKey) (tuplesetRelation computedRelation : String) :
    Except Err Bool × IterTrace :=
  let tuples := readTuples store tk.object tuplesetRelation
  let handlers := tuples.map (fun t =>
    dispatch ⟨(splitObjectRelation t.user).1, computedRelation, tk.user⟩)
  (if handlers.length > 0 then goExcept (unionDrain handlers) else .ok false, ⟨1, 1⟩)

mutual
/-- `checkRewrite` (check.go:453-490) evaluated: structural recursion on the
rewrite; `This` is the union of the two `checkDirect` handlers,
`ComputedUserset` dispatches `object#r'@user`, `TupleToUserset` is
`checkTTU`, and the set operations apply the corresponding reducer to the
children's handlers (`Difference` routes through `exclusion`, whose
two-operand guard is `exclusionGo`; the `panic` branch is `Err.panicked`). -/
def evalRw (dispatch : TupleKey → Except Err Bool) (store : List TupleKey)
    (tk : TupleKey) : Userset → Except Err Bool
  | .this =>
    goExcept (unionDrain [checkDirectFn1 store tk, (checkDirectFn2 dispatch store tk).1])
  | .computedUserset r =>
    dispatch ⟨tk.object, r, tk.user⟩
  | .tupleToUserset tr cr =>
    (checkTTUFn dispatch store tk tr cr).1
  | .union children =>
    goExcept (unionDrain (evalRwList dispatch store tk children))
  | .intersection children =>
    goExcept (intersectionDrain (evalRwList dispatch store tk children))
  | .difference base sub =>
    match exclusionGo [evalRw dispatch store tk base, evalRw dispatch store tk sub]
        .baseFirst with
    | some r => goExcept r
    | none => .error .panicked

/-- The handler outcomes of the children of a set operation, in child order
(the `handlers` slice built by `checkSetOperation`, check.go:430-446). -/
def evalRwList (dispatch : TupleKey → Except Err Bool) (store : List TupleKey)
    (tk : TupleKey) : UsersetList → List (Except Err Bool)
  | .nil => []
  | .cons c cs => evalRw dispatch store tk c :: evalRwList dispatch store tk cs
end

/-- `DispatchCheck` (check.go:250-283): a request with depth 0 fails with
`resolution depth exceeded` before anything else; otherwise the relation of
the request's object type is resolved (failing with a relation-undefined
error) and its rewrite is evaluated under `union` as a single handler, with
every recursive dispatch performed at depth decremented by one. -/
def dispatchCheck (ts : TypeSystem) (store : List TupleKey) (tk : TupleKey) :
    Nat → Except Err Bool
  | 0 => .error .depthExceeded
  | e + 1 =>
    match getRelation ts (splitObject tk.object).1 tk.relation with
    | none => .error (.relationUndefined tk.relation (splitObject tk.object).1)
    | some rel =>
      goExcept (unionDrain
        [evalRw (fun tk' => dispatchCheck ts store tk' e) store tk rel.rewrite])
  termination_by structural d => d

/-! ## The ListUsers expander (`pkg/server/commands/listusers/list_users_rpc.go`)

The expander streams found objects onto a single `foundObjects` channel; the
embedding collects the emissions into a list (in sequential traversal order;
the concurrent pool only permutes the order, which the membership claims do
not depend on) and propagates the first error, after which `ListUsers`
discards all output.  The recursion has no depth limit in the source, so the
embedding carries a fuel parameter; `Err.fuelExhausted` marks the
embedding-only out-of-fuel case. -/

/-- The fields of `openfgav1.ListUsersRequest` the expansion reads.  An unset
`TargetUserRelation` is the proto3 default `""`. -/
structure ListUsersReq where
  object : Obj
  relation : String
  targetUserObjectType : String
  targetUserRelation : String
  deriving DecidableEq, Repr

/-- `tuple.ObjectKey`: the serialized `type:id` form of an object. -/
def objectKey (o : Obj) : String := o.type ++ ":" ++ o.id

/-- The loop body of `expandDirect` (list_users_rpc.go:202-242) over the
filtered tuples: a tuple with a bare-object user of the target type emits
that object; a tuple with a userset user `U#r'` recurses on `(U, r')` with
both target fields preserved; `recur` is the recursive `l.expand` call. -/
def expandDirectLoop (recur : ListUsersReq → Except Err (List Obj))
    (req : ListUsersReq) : List TupleKey → Except Err (List Obj)
  | [] => .ok []
  | t :: rest =>
    let p := splitObjectRelation t.user
    let q := splitObject p.1
    if p.2 == "" then
      if q.1 == req.targetUserObjectType then
        match expandDirectLoop recur req rest with
        | .ok objs => .ok (⟨q.1, q.2⟩ :: objs)
        | .error e => .error e
      else
        expandDirectLoop recur req rest
    else
      match recur { req with object := ⟨q.1, q.2⟩, relation := p.2 } with
      | .error e => .error e
      | .ok objs =>
        match expandDirectLoop recur req rest with
        | .ok objs' => .ok (objs ++ objs')
        | .error e => .error e

/-- The loop body of `expandTTU` (list_users_rpc.go:278-302) over the
filtered tupleset tuples: every tuple's user is split with `SplitObject`
only, and the expansion recurses on `(U, computedRelation)` with both target
fields preserved. -/
def expandTTULoop (recur : ListUsersReq → Except Err (List Obj))
    (req : ListUsersReq) (computedRelation : String) :
    List TupleKey → Except Err (List Obj)
  | [] => .ok []
  | t :: rest =>
    let q := splitObject t.user
    match recur { req with object := ⟨q.1, q.2⟩, relation := computedRelation } with
    | .error e => .error e
    | .ok objs =>
      match expandTTULoop recur req computedRelation rest with
      | .ok objs' => .ok (objs ++ objs')
      | .error e => .error e

/-- `expand` (list_users_rpc.go:132-170): the current object is emitted when
`(object.type, relation)` equals `(targetUserObjectType, targetUserRelation)`;
then the relation's rewrite drives the recursion.  `This` and
`TupleToUserset` read tuples through the `FilterInvalidTuples` wrapper and
loop; the `ComputedUserset` branch recurses on `(object, r')` building a
request that carries `TargetUserObjectType` but — exactly as the Go struct
literal at list_users_rpc.go:157-164 — *not* `TargetUserRelation`, which
therefore resets to `""`; rewrites other than these three hit the `panic` at
the end of the `switch`. -/
def expandLU (ts : TypeSystem) (store : List TupleKey) :
    Nat → ListUsersReq → Except Err (List Obj)
  | 0, _ => .error .fuelExhausted
  | f + 1, req =>
    let emitted : List Obj :=
      if req.object.type == req.targetUserObjectType &&
          req.relation == req.targetUserRelation then
        [req.object]
      else
        []
    match getRelation ts req.object.type req.relation with
    | none => .error (.relationUndefined req.relation req.object.type)
    | some rel =>
      match rel.rewrite with
      | .this =>
        let tuples := (readTuples store (objectKey req.object) req.relation).filter
          (fun t => validTuple ts t)
        match expandDirectLoop (expandLU ts store f) req tuples with
        | .ok objs => .ok (emitted ++ objs)
        | .error e => .error e
      | .computedUserset r =>
        match expandLU ts store f { req with relation := r, targetUserRelation := "" } with
        | .ok objs => .ok (emitted ++ objs)
        | .error e => .error e
      | .tupleToUserset tr cr =>
        let tuples := (readTuples store (objectKey req.object) tr).filter
          (fun t => validTuple ts t)
        match expandTTULoop (expandLU ts store f) req cr tuples with
        | .ok objs => .ok (emitted ++ objs)
        | .error e => .error e
      | _ => .error .unexpectedRewrite
  termination_by structural d => d

/-! ## The index materializer (`materializer` package)

String-level embedding of `materializeInternalWithRewrite` and its helpers.
For the Go raw-string literals that span several source lines, the runs of
whitespace (newline plus indentation) are normalized to a single space; every
other character of the emitted SQL is reproduced exactly.  A Go `panic`
(undefined relation during materialization, or an empty intersection child
list indexing `operands[0]`) is modelled as `none`. -/

/-- A named per-`(type, relation)` SQL statement (`namedSQLStatement`). -/
structure NamedSQL where
  name : String
  sql : String
  deriving DecidableEq, Repr

/-- SQL single-quoting of an identifier, as `'%s'` does in the source. -/
def sqlQuote (s : String) : String := "'" ++ s ++ "'"

/-- `strings.Join(xs, sep)`. -/
def joinSep (sep : String) : List String → String
  | [] => ""
  | [x] => x
  | x :: rest => x ++ sep ++ joinSep sep rest

/-- The CTE name `fmt.Sprintf("%s_%s", objectType, relation)`. -/
def cteName (objectType relation : String) : String := objectType ++ "_" ++ relation

/-- The type carried by a directly-related user-type reference
(`GetType()`). -/
def RelationRef.rtype : RelationRef → String
  | .plain t => t
  | .withRelation t _ => t
  | .wildcard t => t

/-- `materializeDirect` (materializer): a `This` rewrite reads the `tuples`
table restricted to the concrete (non-userset, non-wildcard) subject types,
unioned with one join per userset-typed subject reference; wildcard
references fall through both branches of the loop and are skipped. -/
def materializeDirect (ts : TypeSystem) (objectType relation : String) : Option NamedSQL :=
  match getRelation ts objectType relation with
  | none => none
  | some rel =>
    let subjectTypes := rel.directTypes.filterMap (fun ref =>
      match ref with
      | .plain t => some (sqlQuote t)
      | _ => none)
    let nested := rel.directTypes.filterMap (fun ref =>
      match ref with
      | .withRelation t r =>
        some ("SELECT r.subject_type, r.subject_id, r.subject_relation, " ++
          sqlQuote relation ++ ", s.object_type, s.object_id FROM " ++
          cteName t r ++ " r, tuples s WHERE s.subject_type = " ++ sqlQuote t ++
          " AND s.subject_relation = " ++ sqlQuote r ++ " AND s.relation = " ++
          sqlQuote relation ++ " AND s.object_type = " ++ sqlQuote objectType ++
          " AND s.subject_type = r.object_type AND s.subject_id = r.object_id" ++
          " AND s.subject_relation = r.relation")
      | _ => none)
    let base := "SELECT subject_type, subject_id, subject_relation, relation, " ++
      "object_type,object_id FROM tuples WHERE object_type=" ++ sqlQuote objectType ++
      " AND relation=" ++ sqlQuote relation ++ " AND subject_type IN (" ++
      joinSep "," subjectTypes ++ ") AND subject_relation=" ++ sqlQuote ""
    some ⟨cteName objectType relation,
      if nested.length > 0 then base ++ " UNION " ++ joinSep " UNION " nested else base⟩

/-- `materializeComputedUserset`: project the rewritten relation's CTE,
renaming the relation column. -/
def materializeComputedUserset (objectType relation rewrittenRelation : String) : NamedSQL :=
  ⟨cteName objectType relation,
    "SELECT subject_type, subject_id, subject_relation, " ++ sqlQuote relation ++
      ", object_type,object_id FROM " ++ cteName objectType rewrittenRelation⟩

/-- `materializeTupleToUserset`: the direct tupleset read over the permitted
parent types (those whose `computedRelation` is defined), followed by one
join per parent type; the tupleset read's format string always ends in
`UNION ` (also when no joins follow, exactly as in the source). -/
def materializeTupleToUserset (ts : TypeSystem) (objectType relation tr cr : String) :
    Option NamedSQL :=
  match getRelation ts objectType tr with
  | none => none
  | some tuplesetRel =>
    let subjectTypes := tuplesetRel.directTypes.filterMap (fun ref =>
      match getRelation ts ref.rtype cr with
      | some _ => some ref.rtype
      | none => none)
    let joins := subjectTypes.map (fun st =>
      "SELECT i.subject_type, i.subject_id, i.subject_relation, " ++ sqlQuote cr ++
        ", p.object_type, p.object_id FROM " ++ cteName objectType relation ++ " p, " ++
        cteName st cr ++ " i WHERE p.relation = " ++ sqlQuote tr ++
        " AND p.object_type = " ++ sqlQuote objectType ++
        " AND p.subject_type = i.object_type AND p.subject_id = i.object_id" ++
        " AND i.relation = " ++ sqlQuote cr)
    some ⟨cteName objectType relation,
      "SELECT subject_type, subject_id, subject_relation, relation, object_type, " ++
        "object_id FROM tuples WHERE subject_type IN (" ++
        joinSep "," (subjectTypes.map sqlQuote) ++ ") AND relation = " ++ sqlQuote tr ++
        " AND object_type = " ++ sqlQuote objectType ++ " UNION " ++
        joinSep " UNION " joins⟩

/-- The `WITH operand_i AS (...)` chain of the intersection case. -/
def intersectionWith (i : Nat) : List String → String
  | [] => ""
  | [s] =>
    (if i == 0 then "WITH " else "") ++ "operand_" ++ toString i ++ " AS (" ++ s ++ ")"
  | s :: rest =>
    (if i == 0 then "WITH " else "") ++ "operand_" ++ toString i ++ " AS (" ++ s ++ "), " ++
      intersectionWith (i + 1) rest

/-- The operand names `operand_i, …, operand_{i+k-1}`. -/
def operandNames (i : Nat) : Nat → List String
  | 0 => []
  | k + 1 => ("operand_" ++ toString i) :: operandNames (i + 1) k

/-- The SQL body of the intersection case: common-table wrapping of the
operands and a `WHERE EXISTS` over the remaining operands (which does not
join keys across operands, as the source does).  An empty child list indexes
`operands[0]` in the source and panics (`none` here). -/
def intersectionSQL (sqls : List String) : Option String :=
  match sqls.length with
  | 0 => none
  | n + 1 =>
    some (intersectionWith 0 sqls ++
      (if n + 1 > 1 then
        "SELECT subject_type, subject_id, subject_relation, relation, object_type, " ++
          "object_id FROM operand_0 WHERE EXISTS (SELECT FROM " ++
          joinSep "," (operandNames 1 n) ++ ")"
      else
        "SELECT subject_type, subject_id, subject_relation, relation, object_type, " ++
          "object_id FROM operand_0"))

/-- The SQL of the `Difference(base, subtract)` case (the Go format string at
materializer's difference branch, reproduced verbatim): the base rows with a
`NOT EXISTS` anti-join against the subtract rows, key-equal on
`(subject_type, subject_id, object_type, object_id)`. -/
def differenceSQL (baseSQL subtractSQL relation : String) : String :=
  "WITH base AS (" ++ baseSQL ++ "), subtract AS (" ++ subtractSQL ++
    ") SELECT subject_type, subject_id, subject_relation, " ++ sqlQuote relation ++
    ", object_type, object_id FROM base b WHERE NOT EXISTS (SELECT FROM subtract s" ++
    " WHERE b.subject_type=s.subject_type AND b.subject_id=s.subject_id AND" ++
    " b.object_type=s.object_type AND b.object_id=s.object_id)"

mutual
/-- `materializeInternalWithRewrite`: compile one rewrite of the relation
`objectType#relation` to its named SQL statement. -/
def materializeInternalWithRewrite (ts : TypeSystem) (objectType relation : String) :
    Userset → Option NamedSQL
  | .this => materializeDirect ts objectType relation
  | .computedUserset r => some (materializeComputedUserset objectType relation r)
  | .tupleToUserset tr cr => materializeTupleToUserset ts objectType relation tr cr
  | .union children =>
    match materializeChildren ts objectType relation children with
    | none => none
    | some sqls => some ⟨cteName objectType relation, joinSep " UNION " sqls⟩
  | .intersection children =>
    match materializeChildren ts objectType relation children with
    | none => none
    | some sqls =>
      match intersectionSQL sqls with
      | none => none
      | some sql => some ⟨cteName objectType relation, sql⟩
  | .difference base sub =>
    match materializeInternalWithRewrite ts objectType relation base,
        materializeInternalWithRewrite ts objectType relation sub with
    | some bs, some ss =>
      some ⟨cteName objectType relation, differenceSQL bs.sql ss.sql relation⟩
    | _, _ => none

/-- The SQL bodies of a set operation's children, in child order. -/
def materializeChildren (ts : TypeSystem) (objectType relation : String) :
    UsersetList → Option (List String)
  | .nil => some []
  | .cons c cs =>
    match materializeInternalWithRewrite ts objectType relation c with
    | none => none
    | some s =>
      match materializeChildren ts objectType relation cs with
      | none => none
      | some rest => some (s.sql :: rest)
end

/-- A row of the per-relation schema
`(subject_type, subject_id, subject_relation, relation, object_type,
object_id)`. -/
structure Row where
  subjectType : String
  subjectId : String
  subjectRelation : String
  relation : String
  objectType : String
  objectId : String
  deriving DecidableEq, Repr

/-- The key-equality predicate of the emitted `NOT EXISTS` subquery:
`b.subject_type=s.subject_type AND b.subject_id=s.subject_id AND
b.object_type=s.object_type AND b.object_id=s.object_id`. -/
def keyEq (b s : Row) : Bool :=
  b.subjectType == s.subjectType && b.subjectId == s.subjectId &&
    b.objectType == s.objectType && b.objectId == s.objectId

/-- Relational semantics of the `FROM base b WHERE NOT EXISTS (SELECT FROM
subtract s WHERE <key-equal>)` clause of `differenceSQL`: the base rows with
no key-equal subtract row. -/
def keptBaseRows (base sub : List Row) : List Row :=
  base.filter (fun b => !(sub.any (fun s => keyEq b s)))

/-- Relational semantics of the full `differenceSQL` select list: the kept
base rows with the relation column renamed to the compiled relation. -/
def diffViewRows (relation : String) (base sub : List Row) : List Row :=
  (keptBaseRows base sub).map (fun b => { b with relation := relation })

/-! ## Concrete instances used by the counterexamples and witnesses -/

/-- A model with the single relation `document.viewer: [user]` defined by a
`This` rewrite. -/
def modelDirectUser : TypeSystem := [("document", "viewer", ⟨.this, [.plain "user"]⟩)]

/-- A tuple `document:1#viewer@folder:x` whose user type `folder` matches no
directly-related user type of `document#viewer` under `modelDirectUser`:
an invalid tuple. -/
def tupleInvalidUser : TupleKey := ⟨"document:1", "viewer", "folder:x"⟩

/-- A model with a self-referential `ComputedUserset` cycle:
`document.viewer = viewer`. -/
def modelCyclic : TypeSystem := [("document", "viewer", ⟨.computedUserset "viewer", []⟩)]

/-- The check `document:1#viewer@user:jon` against `modelCyclic`. -/
def tkCyclic : TupleKey := ⟨"document:1", "viewer", "user:jon"⟩

/-- A model with `document.can_read = viewer` (a `ComputedUserset`) and
`document.viewer: [user]`. -/
def modelCanRead : TypeSystem :=
  [("document", "can_read", ⟨.computedUserset "viewer", []⟩),
   ("document", "viewer", ⟨.this, [.plain "user"]⟩)]

/-- The ListUsers request `(document:1, can_read)` targeting the usersets
`document#viewer`: its expansion recurses through the `ComputedUserset` into
the level `(document:1, viewer)`, which equals the target pair. -/
def reqCanRead : ListUsersReq := ⟨⟨"document", "1"⟩, "can_read", "document", "viewer"⟩

/-- The same request already at the level `(document:1, viewer)`: the target
pair matches immediately. -/
def reqViewerLevel : ListUsersReq := ⟨⟨"document", "1"⟩, "viewer", "document", "viewer"⟩

/-- A model with two direct relations, used to instantiate the difference
materialization: `document.viewer: [user]` and `document.banned: [user]`. -/
def modelViewerBanned : TypeSystem :=
  [("document", "viewer", ⟨.this, [.plain "user"]⟩),
   ("document", "banned", ⟨.this, [.plain "user"]⟩)]

/-! ## Reducer lemmas -/

/-- On error-free outcomes the union drain computes the disjunction. -/
theorem unionDrain_map_ok (l : List Bool) :
    unionDrain (l.map Except.ok) = ⟨l.any id, none⟩ := by
  induction l with
  | nil => rfl
  | cons b rest ih => cases b <;> simp [unionDrain, ih]

/-- On error-free outcomes the intersection drain computes the conjunction. -/
theorem intersectionDrain_map_ok (l : List Bool) :
    intersectionDrain (l.map Except.ok) = ⟨l.all id, none⟩ := by
  induction l with
  | nil => rfl
  | cons b rest ih => cases b <;> simp [intersectionDrain, ih]

/-- `any` is invariant under permutation of the list. -/
theorem perm_any_eq {α : Type} (p : α → Bool) {l₁ l₂ : List α} (h : l₁.Perm l₂) :
    l₁.any p = l₂.any p := by
  induction h with
  | nil => rfl
  | cons x _ ih => simp [List.any_cons, ih]
  | swap x y l => simp [List.any_cons]; cases p x <;> cases p y <;> simp
  | trans _ _ ih₁ ih₂ => rw [ih₁, ih₂]

/-- `all` is invariant under permutation of the list. -/
theorem perm_all_eq {α : Type} (p : α → Bool) {l₁ l₂ : List α} (h : l₁.Perm l₂) :
    l₁.all p = l₂.all p := by
  induction h with
  | nil => rfl
  | cons x _ ih => simp [List.all_cons, ih]
  | swap x y l => simp [List.all_cons]; cases p x <;> cases p y <;> simp
  | trans _ _ ih₁ ih₂ => rw [ih₁, ih₂]

/-- A union drain whose first decisive outcome (after a prefix of plain
denials) is an error returns that error with `allowed = false`. -/
theorem unionDrain_first_error (pre rest : List (Except Err Bool)) (e : Err)
    (h : ∀ x ∈ pre, x = .ok false) :
    unionDrain (pre ++ .error e :: rest) = ⟨false, some e⟩ := by
  induction pre with
  | nil => rfl
  | cons x pre ih =>
    have hx : x = .ok false := h x (List.mem_cons_self x pre)
    subst hx
    simpa [unionDrain] using ih (fun y hy => h y (List.mem_cons_of_mem _ hy))

/-- An intersection drain whose first decisive outcome (after a prefix of
plain allows) is an error returns that error with `allowed = false`. -/
theorem intersectionDrain_first_error (pre rest : List (Except Err Bool)) (e : Err)
    (h : ∀ x ∈ pre, x = .ok true) :
    intersectionDrain (pre ++ .error e :: rest) = ⟨false, some e⟩ := by
  induction pre with
  | nil => rfl
  | cons x pre ih =>
    have hx : x = .ok true := h x (List.mem_cons_self x pre)
    subst hx
    simpa [intersectionDrain] using ih (fun y hy => h y (List.mem_cons_of_mem _ hy))

/-- A union drain returns allowed only when its processed prefix consists of
plain denials followed by a plain allow: every error outcome arrives only
after the short-circuit (a cancelled sibling). -/
theorem unionDrain_allowed (arrival : List (Except Err Bool))
    (h : (unionDrain arrival).allowed = true) :
    ∃ pre post, arrival = pre ++ .ok true :: post ∧ ∀ x ∈ pre, x = .ok false := by
  induction arrival with
  | nil => simp [unionDrain] at h
  | cons x rest ih =>
    match x with
    | .error e => simp [unionDrain] at h
    | .ok true => exact ⟨[], rest, rfl, by simp⟩
    | .ok false =>
      obtain ⟨pre, post, heq, hpre⟩ := ih (by simpa [unionDrain] using h)
      refine ⟨.ok false :: pre, post, by simp [heq], ?_⟩
      intro y hy
      rcases List.mem_cons.mp hy with h₁ | h₂
      · exact h₁
      · exact hpre y h₂

/-- An intersection drain returns allowed only when every outcome is a plain
allow (in particular no error was delivered at all). -/
theorem intersectionDrain_allowed (arrival : List (Except Err Bool))
    (h : (intersectionDrain arrival).allowed = true) :
    ∀ x ∈ arrival, x = .ok true := by
  induction arrival with
  | nil => simp
  | cons x rest ih =>
    match x with
    | .error e => simp [intersectionDrain] at h
    | .ok false => simp [intersectionDrain] at h
    | .ok true =>
      intro y hy
      rcases List.mem_cons.mp hy with h₁ | h₂
      · exact h₁
      · exact ih (by simpa [intersectionDrain] using h) y h₂

/-- An exclusion drain returns allowed only when the base outcome is a plain
allow and the subtract outcome a plain denial, in either arrival order. -/
theorem exclusionDrain_allowed (b s : Except Err Bool) (ord : ExclArrival)
    (h : (exclusionDrain b s ord).allowed = true) :
    b = .ok true ∧ s = .ok false := by
  cases ord <;> rcases b with eb | bb <;> rcases s with es | ss <;>
    first
      | (cases bb <;> cases ss <;> simp_all [exclusionDrain])
      | (cases bb <;> simp_all [exclusionDrain])
      | (cases ss <;> simp_all [exclusionDrain])
      | simp_all [exclusionDrain]

/-- The error a union drain returns is the error of one of its outcomes. -/
theorem unionDrain_error_mem {l : List (Except Err Bool)} {e : Err}
    (h : goExcept (unionDrain l) = .error e) : Except.error e ∈ l := by
  induction l with
  | nil => simp [unionDrain, goExcept] at h
  | cons x rest ih =>
    match x with
    | .error e' =>
      have : e' = e := by simpa [unionDrain, goExcept] using h
      subst this
      exact List.mem_cons_self _ _
    | .ok true => simp [unionDrain, goExcept] at h
    | .ok false => exact List.mem_cons_of_mem _ (ih (by simpa [unionDrain] using h))

/-- The error an intersection drain returns is the error of one of its
outcomes. -/
theorem intersectionDrain_error_mem {l : List (Except Err Bool)} {e : Err}
    (h : goExcept (intersectionDrain l) = .error e) : Except.error e ∈ l := by
  induction l with
  | nil => simp [intersectionDrain, goExcept] at h
  | cons x rest ih =>
    match x with
    | .error e' =>
      have : e' = e := by simpa [intersectionDrain, goExcept] using h
      subst this
      exact List.mem_cons_self _ _
    | .ok false => simp [intersectionDrain, goExcept] at h
    | .ok true => exact List.mem_cons_of_mem _ (ih (by simpa [intersectionDrain] using h))

/-- The error an exclusion drain returns is the base or subtract error. -/
theorem exclusionDrain_error_cases {b s : Except Err Bool} {ord : ExclArrival} {e : Err}
    (h : goExcept (exclusionDrain b s ord) = .error e) :
    b = .error e ∨ s = .error e := by
  cases ord <;> rcases b with eb | bb <;> rcases s with es | ss <;>
    first
      | (cases bb <;> cases ss <;> simp_all [exclusionDrain, goExcept])
      | (cases bb <;> simp_all [exclusionDrain, goExcept])
      | (cases ss <;> simp_all [exclusionDrain, goExcept])
      | simp_all [exclusionDrain, goExcept]

/-- A union of a single handler returns that handler's outcome. -/
theorem goExcept_unionDrain_singleton (x : Except Err Bool) :
    goExcept (unionDrain [x]) = x := by
  rcases x with e | b
  · rfl
  · cases b <;> rfl

/-- `checkDirect`'s first handler never returns an error (a missing tuple is
a plain denial). -/
theorem checkDirectFn1_no_error (store : List TupleKey) (tk : TupleKey) (e : Err) :
    checkDirectFn1 store tk ≠ .error e := by
  unfold checkDirectFn1
  cases readUserTuple store tk <;> simp

/-- The userset-expansion handler can only fail with an error produced by a
dispatched sub-check; in particular it never produces `panicked` itself. -/
theorem checkDirectFn2_no_panic (d : TupleKey → Except Err Bool) (store : List TupleKey)
    (tk : TupleKey) (hd : ∀ tk', d tk' ≠ .error .panicked) :
    (checkDirectFn2 d store tk).1 ≠ .error .panicked := by
  unfold checkDirectFn2
  intro h
  simp only at h
  split at h
  · have hm := unionDrain_error_mem h
    obtain ⟨t, _, ht⟩ := List.mem_map.mp hm
    exact hd _ ht
  · simp at h

/-- The TTU handler can only fail with an error produced by a dispatched
sub-check; in particular it never produces `panicked` itself. -/
theorem checkTTUFn_no_panic (d : TupleKey → Except Err Bool) (store : List TupleKey)
    (tk : TupleKey) (tr cr : String) (hd : ∀ tk', d tk' ≠ .error .panicked) :
    (checkTTUFn d store tk tr cr).1 ≠ .error .panicked := by
  unfold checkTTUFn
  intro h
  simp only at h
  split at h
  · have hm := unionDrain_error_mem h
    obtain ⟨t, _, ht⟩ := List.mem_map.mp hm
    exact hd _ ht
  · simp at h

/-- Rewrite evaluation never reaches the `panic` branch of the exclusion
reducer, whatever the rewrite: the `Difference` case always hands `exclusion`
exactly the base and subtract handlers. -/
theorem evalRw_no_panic (d : TupleKey → Except Err Bool) (store : List TupleKey)
    (tk : TupleKey) (hd : ∀ tk', d tk' ≠ .error .panicked) (rw : Userset) :
    evalRw d store tk rw ≠ .error .panicked := by
  induction rw using Userset.rec
    (motive_2 := fun cs => Except.error Err.panicked ∉ evalRwList d store tk cs) with
  | this =>
    intro h
    have hm := unionDrain_error_mem (by simpa [evalRw] using h)
    rcases List.mem_cons.mp hm with h₁ | h₂
    · exact checkDirectFn1_no_error store tk .panicked h₁.symm
    · have h₂' := List.mem_singleton.mp h₂
      exact checkDirectFn2_no_panic d store tk hd h₂'.symm
  | computedUserset r =>
    simpa [evalRw] using hd _
  | tupleToUserset tr cr =>
    simpa [evalRw] using checkTTUFn_no_panic d store tk tr cr hd
  | union cs ih =>
    intro h
    exact ih (unionDrain_error_mem (by simpa [evalRw] using h))
  | intersection cs ih =>
    intro h
    exact ih (intersectionDrain_error_mem (by simpa [evalRw] using h))
  | difference b s ihb ihs =>
    intro h
    have h' : goExcept (exclusionDrain (evalRw d store tk b) (evalRw d store tk s) .baseFirst)
        = .error .panicked := by simpa [evalRw, exclusionGo] using h
    rcases exclusionDrain_error_cases h' with h₁ | h₂
    · exact ihb h₁
    · exact ihs h₂
  | nil => simp [evalRwList]
  | cons c cs ihc ihcs =>
    simp only [evalRwList, List.mem_cons]
    rintro (h₁ | h₂)
    · exact ihc h₁.symm
    · exact ihcs h₂

/-- No evaluation started from `DispatchCheck` reaches the `panic` at the
head of the exclusion reducer. -/
theorem dispatchCheck_no_panic (ts : TypeSystem) (store : List TupleKey) :
    ∀ (depth : Nat) (tk : TupleKey), dispatchCheck ts store tk depth ≠ .error .panicked := by
  intro depth
  induction depth with
  | zero => intro tk; simp [dispatchCheck]
  | succ e ih =>
    intro tk h
    simp only [dispatchCheck] at h
    split at h
    · simp at h
    · have hm := unionDrain_error_mem h
      have heq := List.mem_singleton.mp hm
      exact evalRw_no_panic _ store tk (fun tk' => ih tk') _ heq.symm

/-- Prepending a tuple that `FilterInvalidTuples` rejects leaves the filtered
read of the ListUsers expansion unchanged. -/
theorem filter_read_invalid (ts : TypeSystem) (t : TupleKey) (store : List TupleKey)
    (h : validTuple ts t = false) (o r : String) :
    (readTuples (t :: store) o r).filter (fun x => validTuple ts x) =
      (readTuples store o r).filter (fun x => validTuple ts x) := by
  unfold readTuples
  rw [List.filter_cons]
  split
  · rw [List.filter_cons]
    simp [h]
  · rfl

/-- ListUsers expansion is invariant under adding an invalid tuple to the
store: the `FilterInvalidTuples` wrapper drops it before either expansion
loop runs, at every recursion level. -/
theorem expandLU_invalid_invariant (ts : TypeSystem) (t : TupleKey)
    (h : validTuple ts t = false) :
    ∀ (fuel : Nat) (store : List TupleKey) (req : ListUsersReq),
      expandLU ts (t :: store) fuel req = expandLU ts store fuel req := by
  intro fuel
  induction fuel with
  | zero => intro store req; rfl
  | succ f ih =>
    intro store req
    have hrec : expandLU ts (t :: store) f = expandLU ts store f :=
      funext (fun r => ih store r)
    simp only [expandLU, hrec, filter_read_invalid ts t store h]

/-! ## Claim theorems -/

/-- C2: `DispatchCheck` at depth 0 fails with the resolution-depth-exceeded
error before any evaluation (for every type system, store and tuple key,
including undefined relations); on the self-referential `ComputedUserset`
cycle `document.viewer = viewer` each level of evaluation consumes exactly
one unit of the depth counter (the check at depth `n+1` equals the dispatched
check at depth `n`), so the check resolves to `ResolutionDepthExceeded` after
exactly the configured depth of recursion, for every configured depth. -/
theorem c2_depth_limit :
    (∀ (ts : TypeSystem) (store : List TupleKey) (tk : TupleKey),
      dispatchCheck ts store tk 0 = .error .depthExceeded) ∧
    (∀ (store : List TupleKey) (n : Nat),
      dispatchCheck modelCyclic store tkCyclic (n + 1) =
        dispatchCheck modelCyclic store tkCyclic n) ∧
    ∀ (store : List TupleKey) (n : Nat),
      dispatchCheck modelCyclic store tkCyclic n = .error .depthExceeded := by
  have h₂ : ∀ (store : List TupleKey) (n : Nat),
      dispatchCheck modelCyclic store tkCyclic (n + 1) =
        dispatchCheck modelCyclic store tkCyclic n := by
    intro store n
    show goExcept (unionDrain [dispatchCheck modelCyclic store tkCyclic n]) = _
    exact goExcept_unionDrain_singleton _
  refine ⟨fun ts store tk => rfl, h₂, ?_⟩
  intro store n
  induction n with
  | zero => rfl
  | succ m ih => rw [h₂]; exact ih

/-- C10: the exclusion reducer hits its `panic` branch exactly when handed a
handler count other than two; the `checkSetOperation` exclusion case invoked
from the `Difference` arm of `checkRewrite` passes exactly the base and
subtract children (so its own guard also passes); and no evaluation reachable
from `DispatchCheck` — any model, store, tuple key and depth — ever reaches
the panic branch. -/
theorem c10_exclusion_panic_unreachable :
    (∀ (outcomes : List (Except Err Bool)) (ord : ExclArrival),
      exclusionGo outcomes ord = none ↔ outcomes.length ≠ 2) ∧
    (∀ b s : Userset,
      checkSetOperationChildren .exclusionOp (.cons b (.cons s .nil)) =
        some (.cons b (.cons s .nil))) ∧
    ∀ (ts : TypeSystem) (store : List TupleKey) (tk : TupleKey) (depth : Nat),
      dispatchCheck ts store tk depth ≠ .error .panicked := by
  refine ⟨?_, fun b s => rfl, fun ts store tk depth => dispatchCheck_no_panic ts store depth tk⟩
  intro outcomes ord
  match outcomes with
  | [] => simp [exclusionGo]
  | [x] => simp [exclusionGo]
  | [x, y] => simp [exclusionGo]
  | x :: y :: z :: rest => simp [exclusionGo]

/-- C4 counterexample: under the model `document.viewer: [user]`, the tuple
`document:1#viewer@folder:x` is invalid (its user type `folder` matches no
directly-related user type of the relation), yet the Check evaluator — whose
`checkDirect` reads carry no `FilterInvalidTuples` wrapper — answers allowed
because of exactly that tuple: with it in the store the check of the same key
is allowed, without it denied.  So an invalid tuple does contribute to a
Check result, refuting the claim as stated. -/
theorem c4_invalid_tuple_affects_check_counterexample :
    validTuple modelDirectUser tupleInvalidUser = false ∧
    dispatchCheck modelDirectUser [tupleInvalidUser] tupleInvalidUser 1 = .ok true ∧
    dispatchCheck modelDirectUser [] tupleInvalidUser 1 = .ok false := by
  refine ⟨by decide, by decide, by decide⟩

/-- C4 (amended): tuples whose user shape matches no directly-related user
type are filtered out of the ListUsers expansion reads at every recursion
level and never contribute to ListUsers results (adding such a tuple to the
store leaves the expansion unchanged); the Check evaluator's reads perform no
such filtering, and an invalid tuple can change a Check answer. -/
theorem c4_invalid_tuple_filtering_amended :
    (∀ (ts : TypeSystem) (t : TupleKey), validTuple ts t = false →
      ∀ (fuel : Nat) (store : List TupleKey) (req : ListUsersReq),
        expandLU ts (t :: store) fuel req = expandLU ts store fuel req) ∧
    ∃ (ts : TypeSystem) (t : TupleKey) (store : List TupleKey) (tk : TupleKey) (depth : Nat),
      validTuple ts t = false ∧
      dispatchCheck ts (t :: store) tk depth ≠ dispatchCheck ts store tk depth := by
  refine ⟨expandLU_invalid_invariant,
    ⟨modelDirectUser, tupleInvalidUser, [], tupleInvalidUser, 1, by decide, by decide⟩⟩

/-- Witness for C4 (amended): adding the concrete invalid tuple to a concrete
store leaves a concrete ListUsers expansion unchanged. -/
theorem c4_invalid_tuple_filtering_amended_witness :
    validTuple modelDirectUser tupleInvalidUser = false ∧
    expandLU modelDirectUser [tupleInvalidUser] 2
        ⟨⟨"document", "1"⟩, "viewer", "user", ""⟩ =
      expandLU modelDirectUser [] 2 ⟨⟨"document", "1"⟩, "viewer", "user", ""⟩ :=
  ⟨by decide,
   c4_invalid_tuple_filtering_amended.1 modelDirectUser tupleInvalidUser (by decide) 2 []
     ⟨⟨"document", "1"⟩, "viewer", "user", ""⟩⟩

/-- C5: the `ComputedUserset` branch of `expand` builds its recursive request
without `TargetUserRelation` (list_users_rpc.go:157-164), resetting it to
`""`.  Under `document.can_read = viewer`, the ListUsers request
`(document:1, can_read)` with target `(document, viewer)` recurses into the
level `(document:1, viewer)` — which equals the target pair — but emits
nothing, while the same target pair matched at a level not reached through
`ComputedUserset` does emit the object.  This exhibits the dropped field at
the failing input of the claim. -/
theorem c5_computed_userset_drops_target_relation :
    expandLU modelCanRead [] 3 reqCanRead = .ok [] ∧
    expandLU modelCanRead [] 3 reqViewerLevel = .ok [⟨"document", "1"⟩] := by
  refine ⟨by decide, by decide⟩

/-- C6: the userset-expansion handler of `checkDirect` (check.go:312-349)
acquires one iterator from `ReadUsersetTuples` and contains no `iter.Stop()`
call, so the iterator is never released before the handler returns — its
trace is one acquisition and zero stops for every dispatch function, store
and tuple key — whereas `checkTTU` (check.go:373-381) releases its `Read`
iterator with `defer iter.Stop()` on every path. -/
theorem c6_readuserset_iterator_never_stopped :
    (∀ (d : TupleKey → Except Err Bool) (store : List TupleKey) (tk : TupleKey),
      (checkDirectFn2 d store tk).2 = ⟨1, 0⟩) ∧
    ∀ (d : TupleKey → Except Err Bool) (store : List TupleKey) (tk : TupleKey) (tr cr : String),
      (checkTTUFn d store tk tr cr).2 = ⟨1, 1⟩ :=
  ⟨fun _ _ _ => rfl, fun _ _ _ _ _ => rfl⟩

/-- C7: for every relation compiled from a `Difference(base, subtract)`
rewrite the materializer emits exactly
`WITH base AS (…), subtract AS (…) SELECT … FROM base b WHERE NOT EXISTS
(SELECT FROM subtract s WHERE b.subject_type=s.subject_type AND
b.subject_id=s.subject_id AND b.object_type=s.object_type AND
b.object_id=s.object_id)` — the base expression restricted by a `NOT EXISTS`
subquery over the subtract expression whose predicate equates the subject key
columns `(subject_type, subject_id)` and object key columns
`(object_type, object_id)` of the per-relation schema — and under the
relational semantics of that clause a base row is kept iff no key-equal
subtract row exists, i.e. excluded exactly when a key-equal row exists in
subtract. -/
theorem c7_difference_materialization :
    (∀ (ts : TypeSystem) (oT rel : String) (b s : Userset) (bs ss : NamedSQL),
      materializeInternalWithRewrite ts oT rel b = some bs →
      materializeInternalWithRewrite ts oT rel s = some ss →
      materializeInternalWithRewrite ts oT rel (.difference b s) =
        some ⟨cteName oT rel, differenceSQL bs.sql ss.sql rel⟩) ∧
    ∀ (base sub : List Row) (b : Row),
      b ∈ keptBaseRows base sub ↔ b ∈ base ∧ ∀ s ∈ sub, keyEq b s = false := by
  constructor
  · intro ts oT rel b s bs ss hb hs
    simp only [materializeInternalWithRewrite, hb, hs]
  · intro base sub b
    simp [keptBaseRows, List.mem_filter, List.any_eq_true]

/-- Witness for C7: the difference `viewer but not banned` over
`modelViewerBanned` materializes to the anti-join template over the two
computed-userset bodies, and the concrete base row with a key-equal subtract
row is excluded while the row without one is kept. -/
theorem c7_difference_materialization_witness :
    materializeInternalWithRewrite modelViewerBanned "document" "reader"
        (.difference (.computedUserset "viewer") (.computedUserset "banned")) =
      some ⟨cteName "document" "reader",
        differenceSQL
          (materializeComputedUserset "document" "reader" "viewer").sql
          (materializeComputedUserset "document" "reader" "banned").sql
          "reader"⟩ ∧
      (⟨"user", "jill", "", "viewer", "document", "1"⟩ : Row) ∉
        keptBaseRows [⟨"user", "jill", "", "viewer", "document", "1"⟩]
          [⟨"user", "jill", "", "banned", "document", "1"⟩] ∧
      (⟨"user", "larry", "", "viewer", "document", "1"⟩ : Row) ∈
        keptBaseRows [⟨"user", "larry", "", "viewer", "document", "1"⟩]
          [⟨"user", "jill", "", "banned", "document", "1"⟩] := by
  refine ⟨c7_difference_materialization.1 modelViewerBanned "document" "reader"
      (.computedUserset "viewer") (.computedUserset "banned") _ _ rfl rfl, ?_, ?_⟩
  · intro hmem
    have := (c7_difference_materialization.2 _ _ _).mp hmem
    revert this
    decide
  · refine (c7_difference_materialization.2 _ _ _).mpr (by decide)

/-- C1: for every arrival order the outcome channel can deliver (any
permutation of the error-free child outcomes, covering every context and
concurrency limit), the union reducer returns allowed iff some child resolves
allowed, the intersection reducer returns allowed iff every child resolves
allowed, and the exclusion reducer over `(base, subtract)` returns allowed
iff the base resolves allowed and the subtract resolves denied — all without
error, so early termination never changes the decision. -/
theorem c1_reducer_correctness :
    (∀ (results arrival : List Bool), arrival.Perm results →
      unionDrain (arrival.map Except.ok) = ⟨results.any id, none⟩ ∧
      intersectionDrain (arrival.map Except.ok) = ⟨results.all id, none⟩) ∧
    ∀ (b s : Bool) (ord : ExclArrival),
      exclusionDrain (.ok b) (.ok s) ord = ⟨b && !s, none⟩ := by
  refine ⟨fun results arrival h => ⟨?_, ?_⟩, fun b s ord => ?_⟩
  · rw [unionDrain_map_ok, perm_any_eq id h]
  · rw [intersectionDrain_map_ok, perm_all_eq id h]
  · cases b <;> cases s <;> cases ord <;> rfl

/-- Witness for C1 at the arrival order `[true, false]` of the child results
`[false, true]` and at `(base, subtract) = (true, false)`. -/
theorem c1_reducer_correctness_witness :
    unionDrain ([true, false].map Except.ok) = ⟨true, none⟩ ∧
    intersectionDrain ([true, false].map Except.ok) = ⟨false, none⟩ ∧
    exclusionDrain (.ok true) (.ok false) .baseFirst = ⟨true, none⟩ :=
  ⟨(c1_reducer_correctness.1 [false, true] [true, false] (by decide)).1,
   (c1_reducer_correctness.1 [false, true] [true, false] (by decide)).2,
   c1_reducer_correctness.2 true false .baseFirst⟩

/-- C3: in every reducer, if the first decisive outcome observed is an error
then that error is returned with `allowed = false` (for union a decisive
outcome is an error or an allow, for intersection an error or a denial, for
exclusion any of base error/denial and subtract error/allow); moreover a
reducer returns allowed only when no processed outcome was an error — the
only executions in which a child error coexists with an allowed return are
those where the error arrives after the short-circuiting outcome, i.e. the
child lost the race — so an error outcome is never converted into a plain
denied answer. -/
theorem c3_error_short_circuit :
    (∀ (pre rest : List (Except Err Bool)) (e : Err), (∀ x ∈ pre, x = .ok false) →
      unionDrain (pre ++ .error e :: rest) = ⟨false, some e⟩) ∧
    (∀ (pre rest : List (Except Err Bool)) (e : Err), (∀ x ∈ pre, x = .ok true) →
      intersectionDrain (pre ++ .error e :: rest) = ⟨false, some e⟩) ∧
    (∀ (e : Err) (s : Except Err Bool),
      exclusionDrain (.error e) s .baseFirst = ⟨false, some e⟩) ∧
    (∀ (e : Err) (b : Except Err Bool),
      exclusionDrain b (.error e) .subFirst = ⟨false, some e⟩) ∧
    (∀ e : Err, exclusionDrain (.ok true) (.error e) .baseFirst = ⟨false, some e⟩) ∧
    (∀ e : Err, exclusionDrain (.error e) (.ok false) .subFirst = ⟨false, some e⟩) ∧
    (∀ arrival, (unionDrain arrival).allowed = true →
      ∃ pre post, arrival = pre ++ .ok true :: post ∧ ∀ x ∈ pre, x = .ok false) ∧
    (∀ arrival, (intersectionDrain arrival).allowed = true → ∀ x ∈ arrival, x = .ok true) ∧
    ∀ (b s : Except Err Bool) (ord : ExclArrival),
      (exclusionDrain b s ord).allowed = true → b = .ok true ∧ s = .ok false := by
  refine ⟨unionDrain_first_error, intersectionDrain_first_error,
    fun e s => rfl, fun e b => rfl, fun e => rfl, fun e => rfl,
    unionDrain_allowed, intersectionDrain_allowed, exclusionDrain_allowed⟩

/-- Witness for C3: a union arrival `[denied, error, allowed]` and an
intersection arrival `[allowed, error]` both return the error, and a union
that returned allowed had only plain denials before the allow. -/
theorem c3_error_short_circuit_witness :
    unionDrain [.ok false, .error .depthExceeded, .ok true] = ⟨false, some .depthExceeded⟩ ∧
    intersectionDrain [.ok true, .error .depthExceeded] = ⟨false, some .depthExceeded⟩ ∧
    exclusionDrain (.ok true) (.error .depthExceeded) .baseFirst =
      ⟨false, some .depthExceeded⟩ ∧
    ∃ pre post, ([Except.ok false, Except.ok true] : List (Except Err Bool)) =
      pre ++ .ok true :: post ∧ ∀ x ∈ pre, x = .ok false :=
  ⟨c3_error_short_circuit.1 [.ok false] [.ok true] .depthExceeded (by simp),
   c3_error_short_circuit.2.1 [.ok true] [] .depthExceeded (by simp),
   c3_error_short_circuit.2.2.2.2.1 .depthExceeded,
   c3_error_short_circuit.2.2.2.2.2.2.1 [.ok false, .ok true] (by decide)⟩

/-- C9: the union reducer on an empty handler list returns denied without
error and the intersection reducer on an empty handler list returns allowed
without error (the loop over `len(handlers)` outcomes runs zero times), and
the direct-userset and tuple-to-userset handlers return denied without error
when their reads produce no candidate tuples. -/
theorem c9_empty_reducer_identities :
    unionDrain [] = ⟨false, none⟩ ∧
    intersectionDrain [] = ⟨true, none⟩ ∧
    (∀ (d : TupleKey → Except Err Bool) (store : List TupleKey) (tk : TupleKey),
      readUsersetTuples store tk = [] → (checkDirectFn2 d store tk).1 = .ok false) ∧
    ∀ (d : TupleKey → Except Err Bool) (store : List TupleKey) (tk : TupleKey) (tr cr : String),
      readTuples store tk.object tr = [] → (checkTTUFn d store tk tr cr).1 = .ok false := by
  refine ⟨rfl, rfl, fun d store tk h => ?_, fun d store tk tr cr h => ?_⟩
  · simp [checkDirectFn2, h]
  · simp [checkTTUFn, h]

/-- Witness for C9: the userset-expansion and TTU handlers on an empty store
(no candidate tuples) return denied without error. -/
theorem c9_empty_reducer_identities_witness :
    (checkDirectFn2 (fun _ => .ok false) [] ⟨"document:1", "viewer", "user:jon"⟩).1 =
      .ok false ∧
    (checkTTUFn (fun _ => .ok false) [] ⟨"document:1", "viewer", "user:jon"⟩
      "parent" "viewer").1 = .ok false :=
  ⟨c9_empty_reducer_identities.2.2.1 _ [] _ rfl,
   c9_empty_reducer_identities.2.2.2 _ [] _ "parent" "viewer" rfl⟩

end OpenFGA
